import Mathlib

/-!
Verification of the aoide media-library synchronization engine.

Shallow embedding of the core subsystems of the aoide repository:
the media directory cache (repo-sqlite), the recursive directory hash
pass (usecases), revision-guarded track updates (storage), the
replace/upsert engine (repo) and the duplicate candidate finder
(usecases). SQL statements are modelled as list transformations over
row types translated from the table schemas and Diesel queries.
-/

namespace Aoide

/-- Modelled from the spec: the five mutually exclusive lifecycle states of a
directory cache entry. The `EntryStatus` enum is declared in the `aoide-repo`
crate which is not part of the sources; all five variant names occur in
`repo-sqlite/src/repo/media/dir_cache/mod.rs`. -/
inductive EntryStatus where
  | current
  | outdated
  | added
  | modified
  | orphaned
deriving DecidableEq

/-- Content digest bytes of a directory entry (`EntryDigest`). -/
abbrev EntryDigest := List Nat

/-- One row of the `media_dir_cache` table: collection id, URI, digest,
status and the `row_updated_ms` timestamp. -/
structure CacheRow where
  collectionId : Nat
  uri : String
  digest : EntryDigest
  status : EntryStatus
  rowUpdatedMs : Int
deriving DecidableEq

/-- The `media_dir_cache` table as a list of rows. -/
abbrev CacheTable := List CacheRow

/-- Row filter of the first UPDATE in `media_dir_cache_update_entry_digest`:
same collection, same uri, same digest, and status `Outdated` or `Orphaned`. -/
def digestHitStale (cid : Nat) (uri : String) (d : EntryDigest) (r : CacheRow) : Bool :=
  r.collectionId == cid && r.uri == uri && r.digest == d &&
    (r.status == EntryStatus.outdated || r.status == EntryStatus.orphaned)

/-- Row filter of the second UPDATE in `media_dir_cache_update_entry_digest`:
same collection, same uri, and a digest different from the given one. -/
def digestHitChanged (cid : Nat) (uri : String) (d : EntryDigest) (r : CacheRow) : Bool :=
  r.collectionId == cid && r.uri == uri && !(r.digest == d)

/-- Row filter for the unique key of the table: same collection and uri. -/
def pathHit (cid : Nat) (uri : String) (r : CacheRow) : Bool :=
  r.collectionId == cid && r.uri == uri

/-- SQL prefix test `substr(uri,1,len(p))='p'` on the character sequences of
the two strings. -/
def uriHasPrefix (uriPrefix uri : String) : Bool :=
  uriPrefix.toList.isPrefixOf uri.toList

/-- Row filter of `media_dir_cache_update_entries_status`: collection, uri
prefix (`substr(uri,1,len(prefix)) = prefix`) and optional old status. -/
def entriesStatusHit (cid : Nat) (uriPrefix : String) (oldStatus : Option EntryStatus)
    (r : CacheRow) : Bool :=
  r.collectionId == cid && uriHasPrefix uriPrefix r.uri &&
    (match oldStatus with
      | some old => r.status == old
      | none => true)

/-- Embedding of `media_dir_cache_update_entries_status`
(repo-sqlite/src/repo/media/dir_cache/mod.rs): a single UPDATE setting
`row_updated_ms` and `status` on every row matching collection, uri prefix
and the optional old status; returns the new table and the affected count. -/
def media_dir_cache_update_entries_status (updatedMs : Int) (cid : Nat) (uriPrefix : String)
    (oldStatus : Option EntryStatus) (newStatus : EntryStatus) (t : CacheTable) :
    CacheTable × Nat :=
  (t.map (fun r =>
      if entriesStatusHit cid uriPrefix oldStatus r then
        { r with rowUpdatedMs := updatedMs, status := newStatus }
      else r),
    t.countP (entriesStatusHit cid uriPrefix oldStatus))

/-- Row filter of `media_dir_cache_delete_entries`: collection, uri prefix,
status `Orphaned`, and additionally the optional caller-supplied status. -/
def deleteHit (cid : Nat) (uriPrefix : String) (optStatus : Option EntryStatus)
    (r : CacheRow) : Bool :=
  r.collectionId == cid && uriHasPrefix uriPrefix r.uri &&
    r.status == EntryStatus.orphaned &&
    (match optStatus with
      | some s => r.status == s
      | none => true)

/-- Embedding of `media_dir_cache_delete_entries`
(repo-sqlite/src/repo/media/dir_cache/mod.rs): a single DELETE whose filter
always includes `status = Orphaned`, optionally intersected with a
caller-supplied status; returns the remaining table and the deleted count. -/
def media_dir_cache_delete_entries (cid : Nat) (uriPrefix : String)
    (optStatus : Option EntryStatus) (t : CacheTable) : CacheTable × Nat :=
  (t.filter (fun r => !(deleteHit cid uriPrefix optStatus r)),
    t.countP (deleteHit cid uriPrefix optStatus))

/-- Outcome of `media_dir_cache_update_entry_digest`; the `UpdateOutcome`
enum is declared in the `aoide-repo` crate (not in the sources), its four
variants all occur in the repo-sqlite implementation. -/
inductive UpdateOutcome where
  | current
  | inserted
  | updated
  | skipped
deriving DecidableEq

/-- Embedding of `media_dir_cache_update_entry_digest`
(repo-sqlite/src/repo/media/dir_cache/mod.rs): three conditional statements
tried in priority order. (1) UPDATE rows at this uri with the same digest and
status `Outdated`/`Orphaned` to `Current`; (2) else UPDATE rows at this uri
with a different digest to `Modified`, overwriting the digest; (3) else
INSERT OR IGNORE a new `Added` row. The insert is ignored exactly when a row
with the same `(collection_id, uri)` key exists; that unique constraint lives
in the SQL schema which is not under the sources and is modelled from the
spec invariant (at most one entry per `(collection_id, path)`). -/
def media_dir_cache_update_entry_digest (updatedMs : Int) (cid : Nat) (uri : String)
    (d : EntryDigest) (t : CacheTable) : CacheTable × UpdateOutcome :=
  let t1 := t.map (fun r =>
    if digestHitStale cid uri d r then
      { r with rowUpdatedMs := updatedMs, status := EntryStatus.current }
    else r)
  if t.countP (digestHitStale cid uri d) > 0 then
    (t1, UpdateOutcome.current)
  else
    let t2 := t.map (fun r =>
      if digestHitChanged cid uri d r then
        { r with rowUpdatedMs := updatedMs, status := EntryStatus.modified, digest := d }
      else r)
    if t.countP (digestHitChanged cid uri d) > 0 then
      (t2, UpdateOutcome.updated)
    else
      if t.any (pathHit cid uri) then
        (t, UpdateOutcome.skipped)
      else
        (t ++ [⟨cid, uri, d, EntryStatus.added, updatedMs⟩], UpdateOutcome.inserted)

/-- Per-pass scan summary from `usecases/src/media/tracker/hash.rs`. -/
structure Summary where
  current : Nat
  added : Nat
  modified : Nat
  orphaned : Nat
  skipped : Nat
deriving DecidableEq

/-- All-zero summary (`Summary::default()`). -/
def Summary.zero : Summary := ⟨0, 0, 0, 0, 0⟩

/-- Completion state of one walk (`digest::Completion` / `Completion`). -/
inductive Completion where
  | finished
  | aborted
deriving DecidableEq

/-- Result of one hash pass (`Outcome` in hash.rs). -/
structure HashOutcome where
  completion : Completion
  summary : Summary
deriving DecidableEq

/-- Modelled from the spec: `media_tracker_mark_current_directories_outdated`
is the bulk flip `update_entries_status(root_prefix, Current, Outdated)`
(spec 4.2 step 1); its repo implementation is not under the sources, the
underlying `media_dir_cache_update_entries_status` is. -/
def media_tracker_mark_current_directories_outdated (ms : Int) (cid : Nat)
    (uriPrefix : String) (t : CacheTable) : CacheTable × Nat :=
  media_dir_cache_update_entries_status ms cid uriPrefix
    (some EntryStatus.current) EntryStatus.outdated t

/-- Modelled from the spec: `media_tracker_mark_outdated_directories_orphaned`
marks the entries still Outdated under the prefix as Orphaned
(spec 4.2 step 4); its repo implementation is not under the sources. -/
def media_tracker_mark_outdated_directories_orphaned (ms : Int) (cid : Nat)
    (uriPrefix : String) (t : CacheTable) : CacheTable × Nat :=
  media_dir_cache_update_entries_status ms cid uriPrefix
    (some EntryStatus.outdated) EntryStatus.orphaned t

/-- Function `media_tracker_update_directory_digest`, the per-directory visit call of
the hash pass, realized by `media_dir_cache_update_entry_digest`. -/
def media_tracker_update_directory_digest : Int → Nat → String → EntryDigest →
    CacheTable → CacheTable × UpdateOutcome :=
  media_dir_cache_update_entry_digest

/-- Tally one `DirUpdateOutcome` into the running summary, as in the match
inside `hash_directories_recursively` (hash.rs lines 93 to 108). -/
def tallyOutcome (s : Summary) : UpdateOutcome → Summary
  | UpdateOutcome.current => { s with current := s.current + 1 }
  | UpdateOutcome.inserted => { s with added := s.added + 1 }
  | UpdateOutcome.updated => { s with modified := s.modified + 1 }
  | UpdateOutcome.skipped => { s with skipped := s.skipped + 1 }

/-- One directory visit of the walk: update the digest of the visited path
and tally the outcome. -/
def hashVisitStep (ms : Int) (cid : Nat) (acc : CacheTable × Summary)
    (v : String × EntryDigest) : CacheTable × Summary :=
  let r := media_tracker_update_directory_digest ms cid v.1 v.2 acc.1
  (r.1, tallyOutcome acc.2 r.2)

/-- Embedding of `hash_directories_recursively`
(usecases/src/media/tracker/hash.rs). The filesystem walk itself
(`aoide_media::fs::digest`, not under the sources) is abstracted by the list
of visited `(path, digest)` pairs together with the `Completion` it returned;
the cooperative abort makes the walk stop early, which shortens that list.
The pass first bulk-flips Current entries under the root to Outdated, then
performs one digest update per visited directory, and only on
`Completion::Finished` marks the entries still Outdated as Orphaned,
recording that count in `summary.orphaned`. -/
def hash_directories_recursively (ms : Int) (cid : Nat) (rootUriPrefix : String)
    (visits : List (String × EntryDigest)) (completion : Completion) (t : CacheTable) :
    CacheTable × HashOutcome :=
  let t1 := (media_tracker_mark_current_directories_outdated ms cid rootUriPrefix t).1
  let walked := visits.foldl (hashVisitStep ms cid) (t1, Summary.zero)
  match completion with
  | Completion.finished =>
      let reconciled :=
        media_tracker_mark_outdated_directories_orphaned ms cid rootUriPrefix walked.1
      (reconciled.1, ⟨Completion.finished, { walked.2 with orphaned := reconciled.2 }⟩)
  | Completion.aborted => (walked.1, ⟨Completion.aborted, walked.2⟩)

/-- Claim C1: every call of `update_entry_digest` yields exactly one of
Current, Updated, Inserted, Skipped, determined by trying the branches in
priority order: (i) an entry at this path with this exact digest and status
Outdated or Orphaned is flipped to Current; (ii) else an entry at this path
with a different digest has its digest overwritten and status set to
Modified; (iii) else a new Added entry is inserted; (iv) if the insertion is
rejected as a duplicate nothing is changed and the result is Skipped. -/
theorem update_entry_digest_branch_priority (ms : Int) (cid : Nat) (uri : String)
    (d : EntryDigest) (t : CacheTable) :
    ((∃ r ∈ t, digestHitStale cid uri d r) →
      media_dir_cache_update_entry_digest ms cid uri d t =
        (t.map (fun r =>
          if digestHitStale cid uri d r then
            { r with rowUpdatedMs := ms, status := EntryStatus.current }
          else r),
         UpdateOutcome.current)) ∧
    ((¬ ∃ r ∈ t, digestHitStale cid uri d r) → (∃ r ∈ t, digestHitChanged cid uri d r) →
      media_dir_cache_update_entry_digest ms cid uri d t =
        (t.map (fun r =>
          if digestHitChanged cid uri d r then
            { r with rowUpdatedMs := ms, status := EntryStatus.modified, digest := d }
          else r),
         UpdateOutcome.updated)) ∧
    ((¬ ∃ r ∈ t, digestHitStale cid uri d r) → (¬ ∃ r ∈ t, digestHitChanged cid uri d r) →
      (¬ ∃ r ∈ t, pathHit cid uri r) →
      media_dir_cache_update_entry_digest ms cid uri d t =
        (t ++ [⟨cid, uri, d, EntryStatus.added, ms⟩], UpdateOutcome.inserted)) ∧
    ((¬ ∃ r ∈ t, digestHitStale cid uri d r) → (¬ ∃ r ∈ t, digestHitChanged cid uri d r) →
      (∃ r ∈ t, pathHit cid uri r) →
      media_dir_cache_update_entry_digest ms cid uri d t = (t, UpdateOutcome.skipped)) := by
  have hpos : ∀ p : CacheRow → Bool, (∃ r ∈ t, p r) → 0 < t.countP p := by
    intro p h
    exact List.countP_pos_iff.2 h
  have hneg : ∀ p : CacheRow → Bool, (¬ ∃ r ∈ t, p r) → ¬ 0 < t.countP p := by
    intro p h hc
    exact h (List.countP_pos_iff.1 hc)
  refine ⟨?_, ?_, ?_, ?_⟩
  · intro h
    simp only [media_dir_cache_update_entry_digest]
    rw [if_pos (hpos _ h)]
  · intro h1 h2
    simp only [media_dir_cache_update_entry_digest]
    rw [if_neg (hneg _ h1), if_pos (hpos _ h2)]
  · intro h1 h2 h3
    simp only [media_dir_cache_update_entry_digest]
    rw [if_neg (hneg _ h1), if_neg (hneg _ h2),
      if_neg (by simpa [List.any_eq_true] using h3)]
  · intro h1 h2 h3
    simp only [media_dir_cache_update_entry_digest]
    rw [if_neg (hneg _ h1), if_neg (hneg _ h2),
      if_pos (by simpa [List.any_eq_true] using h3)]

/-- Witness for claim C1: a single Outdated entry rescanned with its own
digest is flipped to Current and the call reports Current. -/
theorem update_entry_digest_branch_priority_witness :
    media_dir_cache_update_entry_digest 9 1 "a/b" [2]
        [⟨1, "a/b", [2], EntryStatus.outdated, 0⟩] =
      ([⟨1, "a/b", [2], EntryStatus.current, 9⟩], UpdateOutcome.current) := by
  have h := (update_entry_digest_branch_priority 9 1 "a/b" [2]
      [⟨1, "a/b", [2], EntryStatus.outdated, 0⟩]).1
    ⟨⟨1, "a/b", [2], EntryStatus.outdated, 0⟩, List.mem_singleton.2 rfl, by decide⟩
  exact h.trans (by decide)

/-- Claim C4: `delete_entries` deletes only rows whose status is Orphaned,
regardless of the caller-supplied optional status filter; every row with a
different status stays in the store unchanged. -/
theorem delete_entries_only_orphaned (cid : Nat) (uriPrefix : String)
    (optStatus : Option EntryStatus) (t : CacheTable) :
    (∀ r ∈ t, r.status ≠ EntryStatus.orphaned →
      r ∈ (media_dir_cache_delete_entries cid uriPrefix optStatus t).1) ∧
    (∀ r ∈ (media_dir_cache_delete_entries cid uriPrefix optStatus t).1, r ∈ t) ∧
    (∀ r ∈ t, r ∉ (media_dir_cache_delete_entries cid uriPrefix optStatus t).1 →
      r.status = EntryStatus.orphaned) := by
  have key : ∀ r ∈ t, r.status ≠ EntryStatus.orphaned →
      r ∈ (media_dir_cache_delete_entries cid uriPrefix optStatus t).1 := by
    intro r hr hstat
    simp only [media_dir_cache_delete_entries, List.mem_filter]
    refine ⟨hr, ?_⟩
    simp [deleteHit, hstat]
  refine ⟨key, ?_, ?_⟩
  · intro r hr
    exact (List.mem_filter.1 hr).1
  · intro r hr hnot
    by_contra hne
    exact hnot (key r hr hne)

/-- Witness for claim C4: with no status filter, a Current entry under the
prefix survives the deletion while the Orphaned one is removed. -/
theorem delete_entries_only_orphaned_witness :
    (⟨1, "p/x", [1], EntryStatus.current, 0⟩ : CacheRow) ∈
      (media_dir_cache_delete_entries 1 "p" none
        [⟨1, "p/x", [1], EntryStatus.current, 0⟩,
         ⟨1, "p/y", [2], EntryStatus.orphaned, 0⟩]).1 ∧
    (media_dir_cache_delete_entries 1 "p" none
        [⟨1, "p/x", [1], EntryStatus.current, 0⟩,
         ⟨1, "p/y", [2], EntryStatus.orphaned, 0⟩]).1 =
      [⟨1, "p/x", [1], EntryStatus.current, 0⟩] :=
  ⟨(delete_entries_only_orphaned 1 "p" none _).1 _ (by simp) (by decide), by decide⟩

/-- A digest update never produces an Orphaned row that was not already in
the table: the two UPDATEs write Current and Modified, the INSERT writes
Added. -/
lemma update_entry_digest_no_new_orphan (ms : Int) (cid : Nat) (uri : String)
    (d : EntryDigest) (t : CacheTable) :
    ∀ r' ∈ (media_dir_cache_update_entry_digest ms cid uri d t).1,
      r'.status = EntryStatus.orphaned → r' ∈ t := by
  intro r' hmem hstat
  simp only [media_dir_cache_update_entry_digest] at hmem
  by_cases h1 : 0 < t.countP (digestHitStale cid uri d)
  · rw [if_pos h1] at hmem
    rcases List.mem_map.1 hmem with ⟨r, hr, heq⟩
    by_cases hhit : digestHitStale cid uri d r
    · rw [if_pos hhit] at heq
      rw [← heq] at hstat
      simp at hstat
    · rw [if_neg hhit] at heq
      rw [← heq]
      exact hr
  · rw [if_neg h1] at hmem
    by_cases h2 : 0 < t.countP (digestHitChanged cid uri d)
    · rw [if_pos h2] at hmem
      rcases List.mem_map.1 hmem with ⟨r, hr, heq⟩
      by_cases hhit : digestHitChanged cid uri d r
      · rw [if_pos hhit] at heq
        rw [← heq] at hstat
        simp at hstat
      · rw [if_neg hhit] at heq
        rw [← heq]
        exact hr
    · rw [if_neg h2] at hmem
      by_cases h3 : t.any (pathHit cid uri)
      · rw [if_pos h3] at hmem
        exact hmem
      · rw [if_neg h3] at hmem
        rcases List.mem_append.1 hmem with hl | hr
        · exact hl
        · rw [List.mem_singleton.1 hr] at hstat
          simp at hstat

/-- A digest update of one path leaves every row of a different uri in the
table untouched. -/
lemma update_entry_digest_preserves_other_uri (ms : Int) (cid : Nat) (uri : String)
    (d : EntryDigest) (t : CacheTable) (r : CacheRow) (hne : r.uri ≠ uri) (hr : r ∈ t) :
    r ∈ (media_dir_cache_update_entry_digest ms cid uri d t).1 := by
  have hstale : ¬ digestHitStale cid uri d r := by
    simp [digestHitStale, hne]
  have hchanged : ¬ digestHitChanged cid uri d r := by
    simp [digestHitChanged, hne]
  simp only [media_dir_cache_update_entry_digest]
  by_cases h1 : 0 < t.countP (digestHitStale cid uri d)
  · rw [if_pos h1]
    exact List.mem_map.2 ⟨r, hr, by rw [if_neg hstale]⟩
  · rw [if_neg h1]
    by_cases h2 : 0 < t.countP (digestHitChanged cid uri d)
    · rw [if_pos h2]
      exact List.mem_map.2 ⟨r, hr, by rw [if_neg hchanged]⟩
    · rw [if_neg h2]
      by_cases h3 : t.any (pathHit cid uri)
      · rw [if_pos h3]
        exact hr
      · rw [if_neg h3]
        exact List.mem_append_left _ hr

/-- The visit fold never produces an Orphaned row that was not already in
the accumulator table. -/
lemma hashFold_no_new_orphan (ms : Int) (cid : Nat) :
    ∀ (visits : List (String × EntryDigest)) (acc : CacheTable × Summary) r',
      r' ∈ (visits.foldl (hashVisitStep ms cid) acc).1 →
      r'.status = EntryStatus.orphaned → r' ∈ acc.1 := by
  intro visits
  induction visits with
  | nil =>
      intro acc r' h hs
      exact h
  | cons v vs ih =>
      intro acc r' h hs
      have h' := ih (hashVisitStep ms cid acc v) r' h hs
      exact update_entry_digest_no_new_orphan ms cid v.1 v.2 acc.1 r' h' hs

/-- The visit fold leaves every row whose uri is never visited untouched. -/
lemma hashFold_preserves_unvisited (ms : Int) (cid : Nat) :
    ∀ (visits : List (String × EntryDigest)) (acc : CacheTable × Summary) (r : CacheRow),
      (∀ v ∈ visits, v.1 ≠ r.uri) → r ∈ acc.1 →
      r ∈ (visits.foldl (hashVisitStep ms cid) acc).1 := by
  intro visits
  induction visits with
  | nil =>
      intro acc r _ hr
      exact hr
  | cons v vs ih =>
      intro acc r hnv hr
      refine ih (hashVisitStep ms cid acc v) r (fun w hw => hnv w (List.mem_cons_of_mem _ hw)) ?_
      exact update_entry_digest_preserves_other_uri ms cid v.1 v.2 acc.1 r
        (fun h => hnv v (List.mem_cons_self _ _) h.symm) hr

/-- Tallying a visit outcome never touches the orphaned counter. -/
lemma tallyOutcome_orphaned (s : Summary) (o : UpdateOutcome) :
    (tallyOutcome s o).orphaned = s.orphaned := by
  cases o <;> rfl

/-- The orphaned counter of the summary is unchanged across the visit fold. -/
lemma hashFold_orphaned_counter (ms : Int) (cid : Nat) :
    ∀ (visits : List (String × EntryDigest)) (acc : CacheTable × Summary),
      (visits.foldl (hashVisitStep ms cid) acc).2.orphaned = acc.2.orphaned := by
  intro visits
  induction visits with
  | nil =>
      intro acc
      rfl
  | cons v vs ih =>
      intro acc
      rw [List.foldl_cons, ih (hashVisitStep ms cid acc v)]
      exact tallyOutcome_orphaned acc.2 _

/-- The outdate-marking step never produces an Orphaned row that was not
already in the table: it only writes the status Outdated. -/
lemma mark_outdated_no_new_orphan (ms : Int) (cid : Nat) (uriPrefix : String)
    (t : CacheTable) :
    ∀ r' ∈ (media_tracker_mark_current_directories_outdated ms cid uriPrefix t).1,
      r'.status = EntryStatus.orphaned → r' ∈ t := by
  intro r' hmem hstat
  simp only [media_tracker_mark_current_directories_outdated,
    media_dir_cache_update_entries_status] at hmem
  rcases List.mem_map.1 hmem with ⟨r, hr, heq⟩
  by_cases hhit : entriesStatusHit cid uriPrefix (some EntryStatus.current) r
  · rw [if_pos hhit] at heq
    rw [← heq] at hstat
    simp at hstat
  · rw [if_neg hhit] at heq
    rw [← heq]
    exact hr

/-- Claim C3: a hash pass that ends with `Completion::Aborted` skips the
orphan reconciliation: the returned summary reports zero orphaned entries,
no entry is transitioned to Orphaned by the pass, and an entry marked
Outdated at pass start whose path is never revisited keeps its row. -/
theorem hash_pass_aborted_no_orphaning (ms : Int) (cid : Nat) (rootUriPrefix : String)
    (visits : List (String × EntryDigest)) (t : CacheTable) :
    ((hash_directories_recursively ms cid rootUriPrefix visits Completion.aborted t).2.summary.orphaned
        = 0) ∧
    ((hash_directories_recursively ms cid rootUriPrefix visits Completion.aborted t).2.completion
        = Completion.aborted) ∧
    (∀ r' ∈ (hash_directories_recursively ms cid rootUriPrefix visits Completion.aborted t).1,
      r'.status = EntryStatus.orphaned → r' ∈ t) ∧
    (∀ r ∈ (media_tracker_mark_current_directories_outdated ms cid rootUriPrefix t).1,
      r.status = EntryStatus.outdated → (∀ v ∈ visits, v.1 ≠ r.uri) →
      r ∈ (hash_directories_recursively ms cid rootUriPrefix visits Completion.aborted t).1) := by
  refine ⟨?_, rfl, ?_, ?_⟩
  · show (visits.foldl (hashVisitStep ms cid) _).2.orphaned = 0
    rw [hashFold_orphaned_counter]
    rfl
  · intro r' hmem hstat
    have h2 := hashFold_no_new_orphan ms cid visits _ r' hmem hstat
    exact mark_outdated_no_new_orphan ms cid rootUriPrefix t r' h2 hstat
  · intro r hr hstat hnv
    exact hashFold_preserves_unvisited ms cid visits _ r hnv hr

/-- Witness for claim C3: a Current entry flipped to Outdated at pass start
survives an aborted pass with its Outdated status, and the summary reports
zero orphaned entries. -/
theorem hash_pass_aborted_no_orphaning_witness :
    ((hash_directories_recursively 9 1 "r" [] Completion.aborted
        [⟨1, "r/a", [5], EntryStatus.current, 0⟩]).2.summary.orphaned = 0) ∧
    (⟨1, "r/a", [5], EntryStatus.outdated, 9⟩ : CacheRow) ∈
      (hash_directories_recursively 9 1 "r" [] Completion.aborted
        [⟨1, "r/a", [5], EntryStatus.current, 0⟩]).1 := by
  refine ⟨(hash_pass_aborted_no_orphaning 9 1 "r" []
      [⟨1, "r/a", [5], EntryStatus.current, 0⟩]).1, ?_⟩
  exact (hash_pass_aborted_no_orphaning 9 1 "r" []
      [⟨1, "r/a", [5], EntryStatus.current, 0⟩]).2.2.2
    ⟨1, "r/a", [5], EntryStatus.outdated, 9⟩ (by decide) rfl (by simp)

/-- Claim C5 fails on the code: an entry that is already Outdated when the
pass starts (for example left behind by an earlier aborted pass) is not
counted by the Current-to-Outdated flip, yet the final reconciliation of a
finished pass orphans it. Here `summary.orphaned = 1` while
`outdated_count = 0`, contradicting `summary.orphaned <= outdated_count`
(the `debug_assert` at hash.rs line 132). -/
theorem hash_pass_orphan_bound_failing :
    ((hash_directories_recursively 5 1 "r" [] Completion.finished
        [⟨1, "r/a", [0], EntryStatus.outdated, 0⟩]).2.summary.orphaned = 1) ∧
    ((media_tracker_mark_current_directories_outdated 5 1 "r"
        [⟨1, "r/a", [0], EntryStatus.outdated, 0⟩]).2 = 0) := by
  constructor
  · decide
  · decide

/-- Modelled from the spec: an entity revision is a monotonically increasing
ordinal paired with a timestamp instant. The `EntityRevision` type is
declared in `aoide-core`, which is not under the sources (only its tests and
callers are); the two components mirror the `rev_no`/`rev_ts` columns read
and written by the storage layer. -/
structure EntityRevision where
  ordinal : Nat
  instant : Int
deriving DecidableEq

/-- Modelled from the spec: `EntityRevision::next()` increases the ordinal by
exactly 1 and stamps the instant of the mutation; the clock read is passed in
explicitly. -/
def EntityRevision.next (r : EntityRevision) (now : Int) : EntityRevision :=
  ⟨r.ordinal + 1, now⟩

/-- One row of `tbl_track` as touched by `update_entity`: uid, the two
revision columns and the serialized payload. -/
structure TrackRow where
  uid : Nat
  revOrdinal : Nat
  revInstant : Int
  serFmt : Nat
  serBlob : List Nat
deriving DecidableEq

/-- The `tbl_track` table. -/
abbrev TrackTable := List TrackRow

/-- Row filter of the revision-guarded UPDATE in `update_entity`: uid,
`rev_no` and `rev_ts` must all equal the supplied previous revision. -/
def revisionHit (uid : Nat) (prev : EntityRevision) (r : TrackRow) : Bool :=
  r.uid == uid && r.revOrdinal == prev.ordinal && r.revInstant == prev.instant

/-- Embedding of `update_entity` (storage/src/storage/track/mod.rs lines
198 to 229): compute the next revision, execute one UPDATE whose filter
matches uid and the previous revision, then report `(prev, None)` when no
row was affected and `(prev, Some(next))` otherwise. -/
def update_entity (t : TrackTable) (uid : Nat) (prev : EntityRevision) (fmt : Nat)
    (blob : List Nat) (now : Int) : TrackTable × (EntityRevision × Option EntityRevision) :=
  let nxt := prev.next now
  let t' := t.map (fun r =>
    if revisionHit uid prev r then
      { r with revOrdinal := nxt.ordinal, revInstant := nxt.instant,
               serFmt := fmt, serBlob := blob }
    else r)
  if t.countP (revisionHit uid prev) < 1 then (t', (prev, none))
  else (t', (prev, some nxt))

/-- Claim C2: a successful update advances the revision by exactly 1, and an
update supplying a revision that is not the currently stored revision of the
entity leaves the table unchanged and reports failure (`None`, surfaced as
`Current` by the repo layer) instead of overwriting the newer row. -/
theorem update_entity_revision_guard (t : TrackTable) (uid : Nat) (prev : EntityRevision)
    (fmt : Nat) (blob : List Nat) (now : Int) :
    ((update_entity t uid prev fmt blob now).2.1 = prev) ∧
    (∀ nxt, (update_entity t uid prev fmt blob now).2.2 = some nxt →
      nxt.ordinal = prev.ordinal + 1) ∧
    ((∀ r ∈ t, r.uid = uid →
        ¬(r.revOrdinal = prev.ordinal ∧ r.revInstant = prev.instant)) →
      (update_entity t uid prev fmt blob now).1 = t ∧
      (update_entity t uid prev fmt blob now).2.2 = none) := by
  refine ⟨?_, ?_, ?_⟩
  · simp only [update_entity]
    split <;> rfl
  · intro nxt h
    simp only [update_entity] at h
    split at h
    · simp at h
    · injection h with h'
      rw [← h']
      rfl
  · intro hmiss
    have hnone : ∀ r ∈ t, ¬ revisionHit uid prev r := by
      intro r hr hhit
      simp only [revisionHit, Bool.and_eq_true, beq_iff_eq] at hhit
      exact hmiss r hr hhit.1.1 ⟨hhit.1.2, hhit.2⟩
    have hcount : t.countP (revisionHit uid prev) = 0 :=
      List.countP_eq_zero.2 (by simpa using hnone)
    have hmap : t.map (fun r =>
        if revisionHit uid prev r then
          { r with revOrdinal := (prev.next now).ordinal,
                   revInstant := (prev.next now).instant,
                   serFmt := fmt, serBlob := blob }
        else r) = t := by
      rw [List.map_congr_left (g := id) ?_, List.map_id]
      intro r hr
      rw [if_neg (hnone r hr)]
      rfl
    simp only [update_entity]
    rw [if_pos (by omega)]
    exact ⟨hmap, rfl⟩

/-- Witness for claim C2: the store holds revision ordinal 3; an update
supplying the stale ordinal 2 changes nothing and reports failure. -/
theorem update_entity_revision_guard_witness :
    (update_entity [⟨7, 3, 100, 0, [1]⟩] 7 ⟨2, 50⟩ 0 [9] 77).1 = [⟨7, 3, 100, 0, [1]⟩] ∧
    (update_entity [⟨7, 3, 100, 0, [1]⟩] 7 ⟨2, 50⟩ 0 [9] 77).2.2 = none :=
  (update_entity_revision_guard [⟨7, 3, 100, 0, [1]⟩] 7 ⟨2, 50⟩ 0 [9] 77).2.2
    (by decide)

namespace ContentMetadataFlags

/-- Bit constant `ContentMetadataFlags::UNRELIABLE` (core/src/media/mod.rs). -/
def UNRELIABLE : Nat := 0

/-- Bit constant `ContentMetadataFlags::RELIABLE`. -/
def RELIABLE : Nat := 1

/-- Bit constant `ContentMetadataFlags::LOCKED`. -/
def LOCKED : Nat := 2

/-- Bit constant `ContentMetadataFlags::STALE`. -/
def STALE : Nat := 4

/-- Predicate `is_reliable`: the state intersects `RELIABLE`. -/
def is_reliable (s : Nat) : Bool := s &&& RELIABLE != 0

/-- Predicate `is_locked`: the state intersects `LOCKED`. -/
def is_locked (s : Nat) : Bool := s &&& LOCKED != 0

/-- Predicate `is_stale`: the state intersects `STALE`. -/
def is_stale (s : Nat) : Bool := s &&& STALE != 0

/-- bitflags difference `self - STALE`: clear the stale bit by intersecting
with the `u8` complement of `STALE` (255 - 4 = 251). -/
def remove_stale (s : Nat) : Nat := s &&& 251

/-- Embedding of `ContentMetadataFlags::update` (core/src/media/mod.rs lines
88 to 103): the target replaces the state (returning `true`) when the state
minus the stale bit equals the target, or the target is locked, or the state
is unlocked and the target is reliable; otherwise the state is kept and the
stale bit is set unless the state is locked (returning `false`). -/
def update (s target : Nat) : Nat × Bool :=
  if remove_stale s = target ∨ is_locked target ∨ (¬ is_locked s ∧ is_reliable target) then
    (target, true)
  else
    (if is_locked s then s else s ||| STALE, false)

end ContentMetadataFlags

/-- Bits at position 8 and above of a byte-sized value are zero. -/
lemma testBit_high_false {x : Nat} (hx : x < 256) {i : Nat} (hi : 8 ≤ i) :
    x.testBit i = false := by
  apply Nat.testBit_lt_two_pow
  calc x < 256 := hx
    _ = 2 ^ 8 := by norm_num
    _ ≤ 2 ^ i := Nat.pow_le_pow_right (by norm_num) hi

/-- Bit pattern of the mask 251: every bit below 8 except bit 2. -/
lemma testBit_mask251 (i : Nat) :
    (251 : Nat).testBit i = (decide (i ≠ 2) && decide (i < 8)) := by
  by_cases h8 : i < 8
  · interval_cases i <;> decide
  · rw [testBit_high_false (by norm_num) (Nat.le_of_not_lt h8)]
    simp [h8]

/-- Bit pattern of the stale bit 4: only bit 2. -/
lemma testBit_stale_bit (i : Nat) (hi : i ≠ 2) : (4 : Nat).testBit i = false := by
  match i with
  | 0 => decide
  | 1 => decide
  | 2 => exact absurd rfl hi
  | (n + 3) =>
      refine Nat.testBit_lt_two_pow ?_
      calc (4 : Nat) < 2 ^ 3 := by norm_num
        _ ≤ 2 ^ (n + 3) := Nat.pow_le_pow_right (by norm_num) (by omega)

/-- Predicate `is_locked` reads exactly bit 1 of the state. -/
lemma is_locked_eq_testBit (s : Nat) : ContentMetadataFlags.is_locked s = s.testBit 1 := by
  have h := Nat.and_two_pow s 1
  norm_num at h
  simp only [ContentMetadataFlags.is_locked, ContentMetadataFlags.LOCKED, h]
  cases s.testBit 1 <;> simp

/-- Predicate `is_reliable` reads exactly bit 0 of the state. -/
lemma is_reliable_eq_testBit (s : Nat) :
    ContentMetadataFlags.is_reliable s = s.testBit 0 := by
  have h := Nat.and_two_pow s 0
  rw [pow_zero, mul_one] at h
  simp only [ContentMetadataFlags.is_reliable, ContentMetadataFlags.RELIABLE, h]
  cases s.testBit 0 <;> simp

/-- Removing the stale bit yields the target exactly when the two states
agree on every bit other than the stale bit (for byte-sized states with an
unset stale bit on the target). -/
lemma remove_stale_eq_iff {s t : Nat} (hs : s < 256) (ht : t < 256)
    (hstale : t.testBit 2 = false) :
    ContentMetadataFlags.remove_stale s = t ↔ ∀ i, i ≠ 2 → s.testBit i = t.testBit i := by
  simp only [ContentMetadataFlags.remove_stale]
  constructor
  · intro h i hi
    rw [← h, Nat.testBit_and, testBit_mask251]
    by_cases h8 : i < 8
    · simp [hi, h8]
    · rw [testBit_high_false hs (Nat.le_of_not_lt h8)]
      simp [h8]
  · intro h
    apply Nat.eq_of_testBit_eq
    intro i
    rw [Nat.testBit_and, testBit_mask251]
    by_cases hi2 : i = 2
    · subst hi2
      simp [hstale]
    · by_cases h8 : i < 8
      · simp [hi2, h8, h i hi2]
      · rw [testBit_high_false hs (Nat.le_of_not_lt h8),
          testBit_high_false ht (Nat.le_of_not_lt h8)]
        simp [h8]

/-- Claim C8: for byte-sized flag states with a non-stale target,
`update(target)` applies the target and returns `true` exactly when the
current state minus the stale bit equals the target, or the target is locked
(bit 1), or the current state is unlocked and the target is reliable
(bit 0); otherwise it returns `false`, keeps every non-stale bit of the
current state and sets the stale bit (bit 2) exactly when the current state
is not locked. The three example transitions of the spec are included. -/
theorem content_metadata_flags_update_spec (s t : Nat) (hs : s < 256) (ht : t < 256)
    (hstale : t.testBit 2 = false) :
    (((ContentMetadataFlags.update s t).2 = true) ↔
      ((∀ i, i ≠ 2 → s.testBit i = t.testBit i) ∨ t.testBit 1 = true ∨
        (s.testBit 1 = false ∧ t.testBit 0 = true))) ∧
    ((ContentMetadataFlags.update s t).2 = true → (ContentMetadataFlags.update s t).1 = t) ∧
    ((ContentMetadataFlags.update s t).2 = false →
      ((ContentMetadataFlags.update s t).1 = (if s.testBit 1 = true then s else s ||| 4)) ∧
      (∀ i, i ≠ 2 → (ContentMetadataFlags.update s t).1.testBit i = s.testBit i) ∧
      ((ContentMetadataFlags.update s t).1.testBit 2 = (s.testBit 2 || !(s.testBit 1)))) ∧
    ContentMetadataFlags.update 0 1 = (1, true) ∧
    ContentMetadataFlags.update 1 0 = (5, false) ∧
    ContentMetadataFlags.update 2 0 = (2, false) := by
  have hCiff : (ContentMetadataFlags.remove_stale s = t ∨
      ContentMetadataFlags.is_locked t = true ∨
      (¬ ContentMetadataFlags.is_locked s = true ∧
        ContentMetadataFlags.is_reliable t = true)) ↔
      ((∀ i, i ≠ 2 → s.testBit i = t.testBit i) ∨ t.testBit 1 = true ∨
        (s.testBit 1 = false ∧ t.testBit 0 = true)) := by
    rw [remove_stale_eq_iff hs ht hstale, is_locked_eq_testBit, is_locked_eq_testBit,
      is_reliable_eq_testBit]
    simp [Bool.not_eq_true]
  refine ⟨?_, ?_, ?_, by decide, by decide, by decide⟩
  · by_cases hC : ContentMetadataFlags.remove_stale s = t ∨
        ContentMetadataFlags.is_locked t = true ∨
        (¬ ContentMetadataFlags.is_locked s = true ∧
          ContentMetadataFlags.is_reliable t = true)
    · simp only [ContentMetadataFlags.update, if_pos hC]
      exact iff_of_true trivial (hCiff.1 hC)
    · simp only [ContentMetadataFlags.update, if_neg hC]
      exact iff_of_false (by simp) (fun hR => hC (hCiff.2 hR))
  · intro htrue
    by_cases hC : ContentMetadataFlags.remove_stale s = t ∨
        ContentMetadataFlags.is_locked t = true ∨
        (¬ ContentMetadataFlags.is_locked s = true ∧
          ContentMetadataFlags.is_reliable t = true)
    · simp only [ContentMetadataFlags.update, if_pos hC]
    · simp only [ContentMetadataFlags.update, if_neg hC] at htrue
      simp at htrue
  · intro hfalse
    have hC : ¬(ContentMetadataFlags.remove_stale s = t ∨
        ContentMetadataFlags.is_locked t = true ∨
        (¬ ContentMetadataFlags.is_locked s = true ∧
          ContentMetadataFlags.is_reliable t = true)) := by
      intro hC
      simp only [ContentMetadataFlags.update, if_pos hC] at hfalse
      simp at hfalse
    have hres : (ContentMetadataFlags.update s t).1 =
        (if s.testBit 1 = true then s else s ||| 4) := by
      simp only [ContentMetadataFlags.update, if_neg hC, ContentMetadataFlags.STALE]
      rw [is_locked_eq_testBit]
    refine ⟨hres, ?_, ?_⟩
    · intro i hi
      rw [hres]
      by_cases hlock : s.testBit 1 = true
      · rw [if_pos hlock]
      · rw [if_neg hlock, Nat.testBit_or, testBit_stale_bit i hi]
        simp
    · rw [hres]
      by_cases hlock : s.testBit 1 = true
      · rw [if_pos hlock, hlock]
        simp
      · have hlock' : s.testBit 1 = false := by simpa using hlock
        rw [if_neg hlock, Nat.testBit_or, hlock',
          show (4 : Nat).testBit 2 = true from by decide]
        simp

/-- Witness for claim C8: applied at the `RELIABLE.update(UNRELIABLE)`
transition, the preserved state carries the stale bit because the current
state is not locked. -/
theorem content_metadata_flags_update_spec_witness :
    (ContentMetadataFlags.update 1 0).1.testBit 2 =
      ((1 : Nat).testBit 2 || !((1 : Nat).testBit 1)) :=
  ((content_metadata_flags_update_spec 1 0 (by norm_num) (by norm_num)
      (by decide)).2.2.1 (by decide)).2.2

/-- Entity header: uid paired with the current revision
(`EntityHeader` with uid and rev in repo/src/track/mod.rs). -/
structure EntityHeader where
  uid : Nat
  rev : EntityRevision
deriving DecidableEq

/-- One track known to the repository together with the data needed by
`replace_track`: its media URI, the collections containing it, the optional
collection entry, and its `EntityData` (header, format, version, blob). -/
structure LocatedTrack where
  mediaUri : String
  collections : List Nat
  entry : Option Nat
  hdr : EntityHeader
  fmt : Nat
  ver : Nat × Nat
  blob : List Nat
deriving DecidableEq

/-- Enum `ReplaceMode` (repo/src/track/mod.rs): two-variant legacy enum. -/
inductive ReplaceMode where
  | updateOnly
  | updateOrCreate
deriving DecidableEq

/-- Enum `ReplaceOutcome` (repo/src/track/mod.rs): the closed seven-variant
result set of `replace_track`. -/
inductive ReplaceOutcome where
  | ambiguousMediaUri (count : Nat)
  | incompatibleFormat (fmt : Nat)
  | incompatibleVersion (ver : Nat × Nat)
  | notCreated
  | unchanged (hdr : EntityHeader)
  | created (hdr : EntityHeader)
  | updated (hdr : EntityHeader)
deriving DecidableEq

/-- Result enum `EntityRevisionUpdateResult` (aoide-core, declared outside the sources;
its three variants are matched in repo/src/track/mod.rs). -/
inductive EntityRevisionUpdateResult where
  | notFound
  | current (rev : EntityRevision)
  | updated (prev next : EntityRevision)
deriving DecidableEq

/-- Store write operations issued by the replace engine, recorded to state
frame conditions (`insert_track` and `update_track` calls). -/
inductive WriteOp where
  | insert (uid : Nat)
  | update (uid : Nat)
deriving DecidableEq

/-- Embedding of the locate step of `replace_track`: equality match on the
media URI, scoped to a collection when one is given
(`locate_tracks_in_collection` / `locate_tracks`). -/
def locate_tracks (cuid : Option Nat) (mediaUri : String) (t : List LocatedTrack) :
    List LocatedTrack :=
  t.filter (fun r => r.mediaUri == mediaUri &&
    (match cuid with
      | some c => r.collections.contains c
      | none => true))

/-- Modelled from the spec: the revision-guarded `update_track` consumed by
`replace_track` (its storage implementation is not under the sources; spec
4.3 requires the revision check and the write to be atomic, reporting
`NotFound`, `Current(actual)` or `Updated`). -/
def update_track (t : List LocatedTrack) (uid : Nat) (prev : EntityRevision)
    (fmt : Nat) (ver : Nat × Nat) (blob : List Nat) (now : Int) :
    List LocatedTrack × EntityRevisionUpdateResult :=
  match t.find? (fun r => r.hdr.uid == uid) with
  | none => (t, EntityRevisionUpdateResult.notFound)
  | some row =>
      if row.hdr.rev = prev then
        (t.map (fun r =>
          if r.hdr.uid == uid then
            { r with hdr := ⟨uid, prev.next now⟩, fmt := fmt, ver := ver, blob := blob }
          else r),
         EntityRevisionUpdateResult.updated prev (prev.next now))
      else (t, EntityRevisionUpdateResult.current row.hdr.rev)

/-- Embedding of `replace_track` (repo/src/track/mod.rs lines 241 to 333):
locate by media URI (collection-scoped when given), fail fast on more than
one match, report incompatibilities, short-circuit to `Unchanged` on a
byte-identical payload, otherwise update through the revision guard; with
zero matches create only in `UpdateOrCreate` mode, using a fresh header.
Alongside the outcome and the optional collection entry, the resulting store
and the list of issued write operations are returned; `bail!` escalations
become `Except.error`. -/
def replace_track (t : List LocatedTrack) (cuid : Option Nat) (mediaUri : String)
    (mode : ReplaceMode) (fmt : Nat) (ver : Nat × Nat) (blob : List Nat)
    (freshHdr : EntityHeader) (now : Int) :
    Except String (ReplaceOutcome × Option Nat × List LocatedTrack × List WriteOp) :=
  let located := locate_tracks cuid mediaUri t
  if located.length > 1 then
    Except.ok (ReplaceOutcome.ambiguousMediaUri located.length, none, t, [])
  else
    match located.head? with
    | some e =>
        let collEntry := match cuid with
          | some _ => e.entry
          | none => none
        if e.fmt ≠ fmt then
          Except.ok (ReplaceOutcome.incompatibleFormat e.fmt, collEntry, t, [])
        else if e.ver ≠ ver then
          Except.ok (ReplaceOutcome.incompatibleVersion e.ver, collEntry, t, [])
        else if e.blob = blob then
          Except.ok (ReplaceOutcome.unchanged e.hdr, collEntry, t, [])
        else
          match update_track t e.hdr.uid e.hdr.rev fmt ver blob now with
          | (_, EntityRevisionUpdateResult.notFound) =>
              Except.error "Failed to update track: Not found"
          | (_, EntityRevisionUpdateResult.current _) =>
              Except.error "Failed to update track: Current revision is newer"
          | (t', EntityRevisionUpdateResult.updated _ nxt) =>
              Except.ok (ReplaceOutcome.updated ⟨e.hdr.uid, nxt⟩, collEntry, t',
                [WriteOp.update e.hdr.uid])
    | none =>
        match mode with
        | ReplaceMode.updateOnly => Except.ok (ReplaceOutcome.notCreated, none, t, [])
        | ReplaceMode.updateOrCreate =>
            Except.ok (ReplaceOutcome.created freshHdr, none,
              t ++ [⟨mediaUri, cuid.toList, none, freshHdr, fmt, ver, blob⟩],
              [WriteOp.insert freshHdr.uid])

/-- Claim C7: when locating entities by the media URI yields more than one
match, `replace_track` returns `AmbiguousMediaUri(n)` with `n` the number of
matches and performs no store mutation (store unchanged, no insert, update
or delete issued). -/
theorem replace_track_ambiguous_no_mutation (t : List LocatedTrack) (cuid : Option Nat)
    (mediaUri : String) (mode : ReplaceMode) (fmt : Nat) (ver : Nat × Nat)
    (blob : List Nat) (freshHdr : EntityHeader) (now : Int)
    (h : (locate_tracks cuid mediaUri t).length > 1) :
    replace_track t cuid mediaUri mode fmt ver blob freshHdr now =
      Except.ok (ReplaceOutcome.ambiguousMediaUri (locate_tracks cuid mediaUri t).length,
        none, t, []) := by
  simp only [replace_track]
  rw [if_pos h]

/-- Witness for claim C7: two entities share the media URI; the call reports
`AmbiguousMediaUri 2` and leaves both rows in place. -/
theorem replace_track_ambiguous_no_mutation_witness :
    replace_track
        [⟨"x.mp3", [], none, ⟨1, ⟨0, 0⟩⟩, 0, (0, 0), [1]⟩,
         ⟨"x.mp3", [], none, ⟨2, ⟨0, 0⟩⟩, 0, (0, 0), [2]⟩]
        none "x.mp3" ReplaceMode.updateOrCreate 0 (0, 0) [3] ⟨9, ⟨0, 0⟩⟩ 7 =
      Except.ok (ReplaceOutcome.ambiguousMediaUri 2, none,
        [⟨"x.mp3", [], none, ⟨1, ⟨0, 0⟩⟩, 0, (0, 0), [1]⟩,
         ⟨"x.mp3", [], none, ⟨2, ⟨0, 0⟩⟩, 0, (0, 0), [2]⟩], []) := by
  have h := replace_track_ambiguous_no_mutation
    [⟨"x.mp3", [], none, ⟨1, ⟨0, 0⟩⟩, 0, (0, 0), [1]⟩,
     ⟨"x.mp3", [], none, ⟨2, ⟨0, 0⟩⟩, 0, (0, 0), [2]⟩]
    none "x.mp3" ReplaceMode.updateOrCreate 0 (0, 0) [3] ⟨9, ⟨0, 0⟩⟩ 7 (by decide)
  exact h.trans (by rfl)

/-- Claim C6: when exactly one entity is located at the media URI, its
stored format and version match the proposed ones, and the stored payload is
byte-for-byte equal to the proposed payload, `replace_track` returns
`Unchanged` with the existing header and issues no insert or update: the
store is returned unmodified and the write log is empty. -/
theorem replace_track_unchanged_idempotent (t : List LocatedTrack) (cuid : Option Nat)
    (mediaUri : String) (mode : ReplaceMode) (e : LocatedTrack) (blob : List Nat)
    (freshHdr : EntityHeader) (now : Int)
    (hloc : locate_tracks cuid mediaUri t = [e]) (hblob : e.blob = blob) :
    replace_track t cuid mediaUri mode e.fmt e.ver blob freshHdr now =
      Except.ok (ReplaceOutcome.unchanged e.hdr,
        (match cuid with | some _ => e.entry | none => none), t, []) := by
  cases cuid with
  | none =>
      simp only [replace_track, hloc]
      norm_num
      intro hne
      exact absurd hblob hne
  | some c =>
      simp only [replace_track, hloc]
      norm_num
      intro hne
      exact absurd hblob hne

/-- Witness for claim C6: replacing the single entity at "y.mp3" with its
own payload yields `Unchanged` and leaves the store untouched. -/
theorem replace_track_unchanged_idempotent_witness :
    replace_track [⟨"y.mp3", [4], some 11, ⟨3, ⟨2, 5⟩⟩, 1, (0, 1), [8, 8]⟩]
        (some 4) "y.mp3" ReplaceMode.updateOnly 1 (0, 1) [8, 8] ⟨9, ⟨0, 0⟩⟩ 7 =
      Except.ok (ReplaceOutcome.unchanged ⟨3, ⟨2, 5⟩⟩, some 11,
        [⟨"y.mp3", [4], some 11, ⟨3, ⟨2, 5⟩⟩, 1, (0, 1), [8, 8]⟩], []) := by
  have h := replace_track_unchanged_idempotent
    [⟨"y.mp3", [4], some 11, ⟨3, ⟨2, 5⟩⟩, 1, (0, 1), [8, 8]⟩]
    (some 4) "y.mp3" ReplaceMode.updateOnly
    ⟨"y.mp3", [4], some 11, ⟨3, ⟨2, 5⟩⟩, 1, (0, 1), [8, 8]⟩ [8, 8] ⟨9, ⟨0, 0⟩⟩ 7
    (by decide) rfl
  exact h.trans (by rfl)

/-- String-valued search fields referenced by `find_duplicate`; declared in
the `aoide-repo` crate outside the sources, all referenced variants occur in
usecases/src/tracks/find_duplicate.rs. -/
inductive StringField where
  | trackArtist
  | trackTitle
  | albumArtist
  | albumTitle
  | sourceType
deriving DecidableEq

/-- Numeric search field referenced by `find_duplicate`. -/
inductive NumericField where
  | audioDurationMs
deriving DecidableEq

/-- Date-time search field referenced by `find_duplicate`. -/
inductive DateTimeField where
  | releasedAt
deriving DecidableEq

/-- Numeric predicates used by `find_duplicate`: equality against an
optional value (null when absent) and the tolerance window built by
`audio_duration_around`. -/
inductive NumericPredicate where
  | equal (v : Option Int)
  | between (lo hi : Int)
deriving DecidableEq

/-- Date-time predicate used by `find_duplicate`. -/
inductive DateTimePredicate where
  | equal (v : Option Int)
deriving DecidableEq

/-- Condition filter used by `find_duplicate`. -/
inductive ConditionFilter where
  | sourceTracked
deriving DecidableEq

/-- Filter `PhraseFieldFilter` with its fields and terms. -/
structure PhraseFieldFilter where
  fields : List StringField
  terms : List String
deriving DecidableEq

/-- Filter `NumericFieldFilter` with its field and predicate. -/
structure NumericFieldFilter where
  field : NumericField
  predicate : NumericPredicate
deriving DecidableEq

/-- Filter `DateTimeFieldFilter` with its field and predicate. -/
structure DateTimeFieldFilter where
  field : DateTimeField
  predicate : DateTimePredicate
deriving DecidableEq

/-- The `SearchFilter` variants used by `find_duplicate`. -/
inductive SearchFilter where
  | phrase (f : PhraseFieldFilter)
  | numeric (f : NumericFieldFilter)
  | dateTime (f : DateTimeFieldFilter)
  | condition (c : ConditionFilter)
  | all (fs : List SearchFilter)

/-- Modelled from the spec: `SearchFilter::released_at_equals(d)` builds an
equality filter on the release date (constructor not under the sources). -/
def SearchFilter.released_at_equals (d : Int) : SearchFilter :=
  SearchFilter.dateTime ⟨DateTimeField.releasedAt, DateTimePredicate.equal (some d)⟩

/-- Modelled from the spec: `SearchFilter::audio_duration_around(v, tol)`
constrains the audio duration to within plus or minus the tolerance
(constructor not under the sources; spec 4.5). -/
def SearchFilter.audio_duration_around (v tol : Int) : SearchFilter :=
  SearchFilter.numeric ⟨NumericField.audioDurationMs, NumericPredicate.between (v - tol) (v + tol)⟩

namespace SearchFlags

/-- Flag `SearchFlags::SOURCE_TRACKED` (find_duplicate.rs). -/
def SOURCE_TRACKED : Nat := 1

/-- Flag `SearchFlags::ALBUM_ARTIST`. -/
def ALBUM_ARTIST : Nat := 2

/-- Flag `SearchFlags::ALBUM_TITLE`. -/
def ALBUM_TITLE : Nat := 4

/-- Flag `SearchFlags::TRACK_ARTIST`. -/
def TRACK_ARTIST : Nat := 8

/-- Flag `SearchFlags::TRACK_TITLE`. -/
def TRACK_TITLE : Nat := 16

/-- Flag `SearchFlags::RELEASED_AT`. -/
def RELEASED_AT : Nat := 32

/-- Flag `SearchFlags::ALL`: all six bits. -/
def ALL : Nat := 63

/-- bitflags `contains`: every bit of the argument is set. -/
def contains (flags b : Nat) : Bool := flags &&& b == b

end SearchFlags

/-- Modelled from the spec: the track fields read by `find_duplicate`
through the accessor methods of the newer `aoide-core` `Track` (not under
the sources): the four main title/actor strings, the release date, the
audio duration of the single `Content::Audio` media source, and its content
type. -/
structure DupTrack where
  trackArtist : Option String
  trackTitle : Option String
  albumArtist : Option String
  albumTitle : Option String
  releasedAt : Option Int
  audioDurationMs : Option Int
  contentType : String
deriving DecidableEq

/-- Parameters `Params` of the duplicate finder (find_duplicate.rs). -/
structure Params where
  audioDurationTolerance : Int
  maxResults : Nat
  searchFlags : Nat
deriving DecidableEq

/-- Default `Params::new()`: tolerance 500 ms, at most 2 results, all search flags
set. -/
def Params.new : Params := ⟨500, 2, SearchFlags.ALL⟩

/-- One conditional push of a string-field phrase filter in
`find_duplicate`: only when the flag is enabled, the value is present and
its trimmed form is non-empty; the trimmed term is pushed. The four string
fields share this literal shape in the source. -/
def string_field_filter (flags flagBit : Nat) (fld : StringField) (v : Option String) :
    List SearchFilter :=
  if SearchFlags.contains flags flagBit then
    match v with
    | some a => if a.trim ≠ "" then [SearchFilter.phrase ⟨[fld], [a.trim]⟩] else []
    | none => []
  else []

/-- The conjunctive filter list built by `find_duplicate`
(find_duplicate.rs lines 98 to 175), in source push order: the four string
fields, the release date (equals-null when absent), the source-tracked
condition, the audio duration (equals-null when absent) and the content
type phrase. -/
def find_duplicate_all_filters (track : DupTrack) (flags : Nat) (tol : Int) :
    List SearchFilter :=
  string_field_filter flags SearchFlags.TRACK_ARTIST StringField.trackArtist track.trackArtist ++
  string_field_filter flags SearchFlags.TRACK_TITLE StringField.trackTitle track.trackTitle ++
  string_field_filter flags SearchFlags.ALBUM_ARTIST StringField.albumArtist track.albumArtist ++
  string_field_filter flags SearchFlags.ALBUM_TITLE StringField.albumTitle track.albumTitle ++
  (if SearchFlags.contains flags SearchFlags.RELEASED_AT then
    [match track.releasedAt with
      | some d => SearchFilter.released_at_equals d
      | none => SearchFilter.dateTime ⟨DateTimeField.releasedAt, DateTimePredicate.equal none⟩]
  else []) ++
  (if SearchFlags.contains flags SearchFlags.SOURCE_TRACKED then
    [SearchFilter.condition ConditionFilter.sourceTracked]
  else []) ++
  [match track.audioDurationMs with
    | some v => SearchFilter.audio_duration_around v tol
    | none => SearchFilter.numeric ⟨NumericField.audioDurationMs, NumericPredicate.equal none⟩] ++
  [SearchFilter.phrase ⟨[StringField.sourceType], [track.contentType]⟩]

/-- Record header of a search hit, carrying the track id. -/
structure RecordHeader where
  id : Nat
deriving DecidableEq

/-- Sort field used by `find_duplicate`. -/
inductive SortField where
  | sourceCollectedAt
deriving DecidableEq

/-- Sort direction. -/
inductive SortDirection where
  | ascending
  | descending
deriving DecidableEq

/-- One ordering clause: a sort field and a direction. -/
structure SortOrder where
  field : SortField
  direction : SortDirection
deriving DecidableEq

/-- Embedding of `find_duplicate` (find_duplicate.rs lines 83 to 201): build
the conjunctive filter, run one search ordered by most recently collected
first (the repository is abstracted by the `search` argument), drop every
hit whose id equals the query track id, and truncate to `max_results`. -/
def find_duplicate {ε : Type} (search : SearchFilter → List SortOrder → List (RecordHeader × ε))
    (trackId : Nat) (track : DupTrack) (params : Params) : List (Nat × ε) :=
  let filters := find_duplicate_all_filters track params.searchFlags params.audioDurationTolerance
  let candidates := search (SearchFilter.all filters)
    [⟨SortField.sourceCollectedAt, SortDirection.descending⟩]
  (candidates.filterMap (fun c =>
    if c.1.id == trackId then none else some (c.1.id, c.2))).take params.maxResults

/-- Claim C9: the candidate list returned by `find_duplicate` never contains
a pair whose id is the query track's own id, and its length is at most
`params.max_results`, whose default (`Params::new`) is 2. -/
theorem find_duplicate_self_excluded_and_bounded {ε : Type}
    (search : SearchFilter → List SortOrder → List (RecordHeader × ε))
    (trackId : Nat) (track : DupTrack) (params : Params) :
    (∀ p ∈ find_duplicate search trackId track params, p.1 ≠ trackId) ∧
    (find_duplicate search trackId track params).length ≤ params.maxResults ∧
    Params.new.maxResults = 2 := by
  refine ⟨?_, ?_, rfl⟩
  · intro p hp
    simp only [find_duplicate] at hp
    have hp' := List.take_subset _ _ hp
    rcases List.mem_filterMap.1 hp' with ⟨c, _, hsome⟩
    by_cases h : (c.1.id == trackId)
    · rw [if_pos h] at hsome
      simp at hsome
    · rw [if_neg h] at hsome
      injection hsome with h2
      rw [← h2]
      simpa using h
  · simp only [find_duplicate]
    exact List.length_take_le _ _

/-- Witness for claim C9: a search returning the query id 5 twice and the
id 7 once yields only the foreign candidate, within the default bound. -/
theorem find_duplicate_self_excluded_and_bounded_witness :
    ((7, 1) : Nat × Nat).1 ≠ 5 ∧
    (find_duplicate (fun _ _ => [(⟨5⟩, 0), (⟨7⟩, 1), (⟨5⟩, 2)]) 5
      ⟨none, none, none, none, none, none, "x"⟩ Params.new).length ≤ Params.new.maxResults :=
  ⟨(find_duplicate_self_excluded_and_bounded (fun _ _ => [(⟨5⟩, 0), (⟨7⟩, 1), (⟨5⟩, 2)]) 5
      ⟨none, none, none, none, none, none, "x"⟩ Params.new).1 (7, 1) (by decide),
    (find_duplicate_self_excluded_and_bounded (fun _ _ => [(⟨5⟩, 0), (⟨7⟩, 1), (⟨5⟩, 2)]) 5
      ⟨none, none, none, none, none, none, "x"⟩ Params.new).2.1⟩

/-- A filter constrains the given string field exactly when it is a phrase
filter listing that field. -/
def fieldMentioned (fld : StringField) : SearchFilter → Bool
  | SearchFilter.phrase p => p.fields.contains fld
  | _ => false

/-- A disabled, absent or empty-after-trim string value contributes no
filter at all. -/
lemma string_field_filter_empty (flags flagBit : Nat) (fld : StringField)
    (v : Option String) (hv : v = none ∨ ∃ a, v = some a ∧ a.trim = "") :
    string_field_filter flags flagBit fld v = [] := by
  rcases hv with h | ⟨a, h, ha⟩
  · subst h
    simp [string_field_filter]
  · subst h
    simp [string_field_filter, ha]

/-- The phrase filter contributed by one string field never constrains a
different string field. -/
lemma string_field_filter_no_other_field (flags flagBit : Nat) (fld fld' : StringField)
    (hne : fld ≠ fld') (v : Option String) :
    ∀ f ∈ string_field_filter flags flagBit fld' v, fieldMentioned fld f = false := by
  intro f hf
  simp only [string_field_filter] at hf
  split at hf
  · cases v with
    | none => simp at hf
    | some a =>
        change f ∈ (if a.trim ≠ "" then
          [SearchFilter.phrase ⟨[fld'], [a.trim]⟩] else []) at hf
        split at hf
        · rw [List.mem_singleton.1 hf]
          simp only [fieldMentioned]
          cases fld <;> cases fld' <;> first | rfl | exact absurd rfl hne
        · simp at hf
  · simp at hf

/-- None of the non-string-field segments of the filter list (release date,
source-tracked condition, audio duration, content type phrase) constrains a
string field other than the source type. -/
lemma all_filters_field_not_mentioned (track : DupTrack) (flags : Nat) (tol : Int)
    (fld : StringField) (hfld : fld ≠ StringField.sourceType)
    (h1 : ∀ f ∈ string_field_filter flags SearchFlags.TRACK_ARTIST
        StringField.trackArtist track.trackArtist, fieldMentioned fld f = false)
    (h2 : ∀ f ∈ string_field_filter flags SearchFlags.TRACK_TITLE
        StringField.trackTitle track.trackTitle, fieldMentioned fld f = false)
    (h3 : ∀ f ∈ string_field_filter flags SearchFlags.ALBUM_ARTIST
        StringField.albumArtist track.albumArtist, fieldMentioned fld f = false)
    (h4 : ∀ f ∈ string_field_filter flags SearchFlags.ALBUM_TITLE
        StringField.albumTitle track.albumTitle, fieldMentioned fld f = false) :
    ∀ f ∈ find_duplicate_all_filters track flags tol, fieldMentioned fld f = false := by
  intro f hf
  simp only [find_duplicate_all_filters, List.append_assoc] at hf
  rcases List.mem_append.1 hf with h | hf
  · exact h1 f h
  rcases List.mem_append.1 hf with h | hf
  · exact h2 f h
  rcases List.mem_append.1 hf with h | hf
  · exact h3 f h
  rcases List.mem_append.1 hf with h | hf
  · exact h4 f h
  rcases List.mem_append.1 hf with h | hf
  · split at h
    · cases htr : track.releasedAt with
      | none =>
          rw [htr] at h
          rw [List.mem_singleton.1 h]
          rfl
      | some d =>
          rw [htr] at h
          rw [List.mem_singleton.1 h]
          rfl
    · simp at h
  rcases List.mem_append.1 hf with h | hf
  · split at h
    · rw [List.mem_singleton.1 h]
      rfl
    · simp at h
  rcases List.mem_append.1 hf with h | hf
  · cases htr : track.audioDurationMs with
    | none =>
        rw [htr] at h
        rw [List.mem_singleton.1 h]
        rfl
    | some v =>
        rw [htr] at h
        rw [List.mem_singleton.1 h]
        rfl
  · rw [List.mem_singleton.1 hf]
    cases fld with
    | sourceType => exact absurd rfl hfld
    | trackArtist => rfl
    | trackTitle => rfl
    | albumArtist => rfl
    | albumTitle => rfl

/-- Claim C10: `find_duplicate` treats missing values asymmetrically. For an
enabled string field (track artist, track title, album artist, album title)
whose value is absent or trims to the empty string, no sub-filter mentioning
that field is added at all; but an absent release date (with its flag
enabled) and an absent audio duration each add an equals-null sub-filter. -/
theorem find_duplicate_missing_value_asymmetry (track : DupTrack) (flags : Nat) (tol : Int) :
    ((SearchFlags.contains flags SearchFlags.TRACK_ARTIST = true →
      (track.trackArtist = none ∨ ∃ a, track.trackArtist = some a ∧ a.trim = "") →
      ∀ f ∈ find_duplicate_all_filters track flags tol,
        fieldMentioned StringField.trackArtist f = false)) ∧
    ((SearchFlags.contains flags SearchFlags.TRACK_TITLE = true →
      (track.trackTitle = none ∨ ∃ a, track.trackTitle = some a ∧ a.trim = "") →
      ∀ f ∈ find_duplicate_all_filters track flags tol,
        fieldMentioned StringField.trackTitle f = false)) ∧
    ((SearchFlags.contains flags SearchFlags.ALBUM_ARTIST = true →
      (track.albumArtist = none ∨ ∃ a, track.albumArtist = some a ∧ a.trim = "") →
      ∀ f ∈ find_duplicate_all_filters track flags tol,
        fieldMentioned StringField.albumArtist f = false)) ∧
    ((SearchFlags.contains flags SearchFlags.ALBUM_TITLE = true →
      (track.albumTitle = none ∨ ∃ a, track.albumTitle = some a ∧ a.trim = "") →
      ∀ f ∈ find_duplicate_all_filters track flags tol,
        fieldMentioned StringField.albumTitle f = false)) ∧
    (SearchFlags.contains flags SearchFlags.RELEASED_AT = true → track.releasedAt = none →
      SearchFilter.dateTime ⟨DateTimeField.releasedAt, DateTimePredicate.equal none⟩ ∈
        find_duplicate_all_filters track flags tol) ∧
    (track.audioDurationMs = none →
      SearchFilter.numeric ⟨NumericField.audioDurationMs, NumericPredicate.equal none⟩ ∈
        find_duplicate_all_filters track flags tol) := by
  refine ⟨?_, ?_, ?_, ?_, ?_, ?_⟩
  · intro _ hval
    refine all_filters_field_not_mentioned track flags tol _ (by decide) ?_ ?_ ?_ ?_
    · rw [string_field_filter_empty _ _ _ _ hval]
      intro f hf
      simp at hf
    · exact string_field_filter_no_other_field _ _ _ _ (by decide) _
    · exact string_field_filter_no_other_field _ _ _ _ (by decide) _
    · exact string_field_filter_no_other_field _ _ _ _ (by decide) _
  · intro _ hval
    refine all_filters_field_not_mentioned track flags tol _ (by decide) ?_ ?_ ?_ ?_
    · exact string_field_filter_no_other_field _ _ _ _ (by decide) _
    · rw [string_field_filter_empty _ _ _ _ hval]
      intro f hf
      simp at hf
    · exact string_field_filter_no_other_field _ _ _ _ (by decide) _
    · exact string_field_filter_no_other_field _ _ _ _ (by decide) _
  · intro _ hval
    refine all_filters_field_not_mentioned track flags tol _ (by decide) ?_ ?_ ?_ ?_
    · exact string_field_filter_no_other_field _ _ _ _ (by decide) _
    · exact string_field_filter_no_other_field _ _ _ _ (by decide) _
    · rw [string_field_filter_empty _ _ _ _ hval]
      intro f hf
      simp at hf
    · exact string_field_filter_no_other_field _ _ _ _ (by decide) _
  · intro _ hval
    refine all_filters_field_not_mentioned track flags tol _ (by decide) ?_ ?_ ?_ ?_
    · exact string_field_filter_no_other_field _ _ _ _ (by decide) _
    · exact string_field_filter_no_other_field _ _ _ _ (by decide) _
    · exact string_field_filter_no_other_field _ _ _ _ (by decide) _
    · rw [string_field_filter_empty _ _ _ _ hval]
      intro f hf
      simp at hf
  · intro hflag hrel
    simp only [find_duplicate_all_filters, List.append_assoc, List.mem_append]
    refine Or.inr (Or.inr (Or.inr (Or.inr (Or.inl ?_))))
    rw [if_pos hflag, hrel]
    exact List.mem_singleton.2 rfl
  · intro hdur
    simp only [find_duplicate_all_filters, List.append_assoc, List.mem_append]
    refine Or.inr (Or.inr (Or.inr (Or.inr (Or.inr (Or.inr (Or.inl ?_))))))
    rw [hdur]
    exact List.mem_singleton.2 rfl

/-- Witness for claim C10: for a track with every optional value absent and
all flags enabled, no filter constrains the track artist while the
equals-null release date and duration filters are present. -/
theorem find_duplicate_missing_value_asymmetry_witness :
    (∀ f ∈ find_duplicate_all_filters ⟨none, none, none, none, none, none, "audio/mpeg"⟩ 63 500,
      fieldMentioned StringField.trackArtist f = false) ∧
    SearchFilter.dateTime ⟨DateTimeField.releasedAt, DateTimePredicate.equal none⟩ ∈
      find_duplicate_all_filters ⟨none, none, none, none, none, none, "audio/mpeg"⟩ 63 500 ∧
    SearchFilter.numeric ⟨NumericField.audioDurationMs, NumericPredicate.equal none⟩ ∈
      find_duplicate_all_filters ⟨none, none, none, none, none, none, "audio/mpeg"⟩ 63 500 :=
  ⟨(find_duplicate_missing_value_asymmetry
      ⟨none, none, none, none, none, none, "audio/mpeg"⟩ 63 500).1 (by decide) (Or.inl rfl),
   (find_duplicate_missing_value_asymmetry
      ⟨none, none, none, none, none, none, "audio/mpeg"⟩ 63 500).2.2.2.2.1 (by decide) rfl,
   (find_duplicate_missing_value_asymmetry
      ⟨none, none, none, none, none, none, "audio/mpeg"⟩ 63 500).2.2.2.2.2 rfl⟩

end Aoide
